import Mathlib

set_option maxRecDepth 4000

/-!
Verification development for the LocalMoodLamp firmware (src/src/main.cpp).

The development shallowly embeds the core of the firmware: the record codec
(saveAnimationFromSerial's parse and handleDownloadRequest's serialisation),
the EEPROM-backed persistent store, the serial provisioning protocol
(handleUploadRequest, handleDownloadRequest, handleSerial, waitForAck), the
two-button mode-selection state machine (buttonFSM), and the runtime loop.

Machine integers are modelled as Nat with explicit truncation (% 256,
% 2 ^ 32) where the C code truncates.  The serial link is modelled as a list
of events: a `some b` event is an arriving byte b, a `none` event is a
silence long enough to trip the 1000 ms acknowledgement timeout (byte-level
data reads in the firmware have no timeout, so they skip over silences and
simply block; a stream with no further byte makes the device hang, which the
model renders as `Option.none` results).
-/

namespace MoodLamp

/-- One keyframe of an animation: an RGB triple and a millisecond
timestamp, as in the `AnimationDriver` keyframe struct (fields
`color[0..2]` and `time`). -/
structure keyframe where
  c0 : Nat
  c1 : Nat
  c2 : Nat
  time : Nat
deriving DecidableEq, Repr

/-- Default keyframe value used to model reads of C array cells. -/
def keyframe0 : keyframe := ⟨0, 0, 0, 0⟩

/-- The in-memory `AnimationDriver::animation` struct: a frame count, the
frame array (modelled by its meaningful prefix of length `frameCount`), and
the derived total duration `time`. -/
structure animation where
  frameCount : Nat
  frames : List keyframe
  time : Nat
deriving DecidableEq, Repr

/-- SERIAL_PACKET from main.cpp: size of the upload buffer in bytes. -/
def SERIAL_PACKET : Nat := 142

/-- FRAME_SIZE from main.cpp: bytes per keyframe on the wire. -/
def FRAME_SIZE : Nat := 7

/-- META_SIZE from main.cpp: header bytes of an upload payload. -/
def META_SIZE : Nat := 2

/-- BTN_TIME from main.cpp: debounce window in milliseconds. -/
def BTN_TIME : Nat := 200

/-- Number of animation slots: `sizeof(defaults) / sizeof(animation)` with
six default animations declared in main.cpp. -/
def SLOT_COUNT : Nat := 6

/-- Byte size of the in-memory `AnimationDriver::animation` struct, the
stride used by every `EEPROM.get`/`EEPROM.put` call in main.cpp
(`index * sizeof(AnimationDriver::animation)`).  The source states the
value in the comment at main.cpp line 74: "Note animation size is 168
bytes & eeprom is 1kB". -/
def animationSize : Nat := 168

/-- EEPROM byte address of slot `i`, as computed by every storage access in
main.cpp: `index * sizeof(AnimationDriver::animation)`. -/
def eepromAddr (i : Nat) : Nat := i * animationSize

/-- The non-volatile store, as a map from byte address to the animation
struct stored there (all firmware accesses read or write a whole struct at
a slot's base address). -/
def Store : Type := Nat → animation

/-- Model of `EEPROM.get`: read the struct at address `addr`. -/
def eepromGet (addr : Nat) (st : Store) : animation := st addr

/-- Model of `EEPROM.put`: overwrite the struct at address `addr`. -/
def eepromPut (addr : Nat) (a : animation) (st : Store) : Store :=
  fun x => if x = addr then a else st x

/-! ### Record codec

`parseFrame`/`decodeAnim` embed the parsing loop of
`saveAnimationFromSerial` (main.cpp lines 151-167); `encodeFrame`/
`frameBytes` embed the serialisation loop of `handleDownloadRequest`
(main.cpp lines 289-304). -/

/-- Keyframe `i` parsed from an upload buffer, per the loop body of
`saveAnimationFromSerial`: `baseIndex = i * FRAME_SIZE + 2`, three color
bytes, then a big-endian 32-bit timestamp assembled with shifts and ors. -/
def parseFrame (buff : List Nat) (i : Nat) : keyframe :=
  let baseIndex := i * FRAME_SIZE + META_SIZE
  { c0 := buff.getD baseIndex 0
    c1 := buff.getD (baseIndex + 1) 0
    c2 := buff.getD (baseIndex + 2) 0
    time := buff.getD (baseIndex + 3) 0 <<< 24 ||| buff.getD (baseIndex + 4) 0 <<< 16 |||
            buff.getD (baseIndex + 5) 0 <<< 8 ||| buff.getD (baseIndex + 6) 0 }

/-- The animation struct built by `saveAnimationFromSerial` from an upload
buffer: `frameCount := buff[1]`, frames 0..frameCount-1 parsed from the
buffer, and `_a.time` assigned (inside the loop, at `i = buff[1] - 1`) the
last frame's timestamp.  The local `_a` is stack-allocated and never
zero-initialised, so for `frameCount = 0` the loop body never runs and
`_a.time` keeps whatever garbage the stack held; the model threads that
garbage through the `init` parameter. -/
def decodeAnim (init : animation) (buff : List Nat) : animation :=
  let fc := buff.getD 1 0
  { frameCount := fc
    frames := (List.range fc).map (parseFrame buff)
    time := match fc with
      | 0 => init.time
      | k + 1 => (parseFrame buff k).time }

/-- The 7 wire bytes of one keyframe, per the serialisation loop of
`handleDownloadRequest`: three color bytes then the timestamp bytes
`(uint8_t)(time >> 24) ... (uint8_t)(time)` (each cast truncates mod 256). -/
def encodeFrame (f : keyframe) : List Nat :=
  [f.c0, f.c1, f.c2,
   (f.time >>> 24) % 256, (f.time >>> 16) % 256, (f.time >>> 8) % 256, f.time % 256]

/-- The `frameBuff` array sent by `handleDownloadRequest`: keyframes 0 to
`frameCount - 1` serialised back-to-back, 7 bytes each. -/
def frameBytes (a : animation) : List Nat :=
  ((List.range a.frameCount).map (fun i => encodeFrame (a.frames.getD i keyframe0))).flatten

/-- Model of `saveAnimationFromSerial` (main.cpp lines 151-173): parse the
buffer into an animation struct and `EEPROM.put` it at address
`buff[0] * sizeof(animation)`.  `garbage` is the uninitialised stack
content of the local `_a`. -/
def saveAnimationFromSerial (garbage : animation) (buff : List Nat) (st : Store) : Store :=
  eepromPut (eepromAddr (buff.getD 0 0)) (decodeAnim garbage buff) st

/-! ### Serial stream primitives -/

/-- The host-to-device serial stream: `some b` is an arriving byte, `none`
is a silence longer than the 1000 ms acknowledgement timeout. -/
abbrev SerialIn : Type := List (Option Nat)

/-- A blocking byte read (`while (Serial.available() < 1);` then
`Serial.read()`): silences are waited out; a stream with no further byte
means the firmware hangs, modelled as `none`. -/
def readBlocking : SerialIn → Option (Nat × SerialIn)
  | [] => none
  | Option.none :: rest => readBlocking rest
  | Option.some b :: rest => some (b, rest)

/-- Model of `waitForAck` (main.cpp lines 176-208): succeed only when the
very next event is the byte 0xFF; any other byte, or a silence exceeding
the timeout (including a dead stream), fails. -/
def waitForAck : SerialIn → Bool × SerialIn
  | [] => (false, [])
  | Option.none :: rest => (false, rest)
  | Option.some b :: rest => (if b = 255 then true else false, rest)

/-! ### Upload handling -/

/-- A visible step of a protocol exchange: raw bytes written with
`Serial.write`, a text line written with `Serial.println` (the empty line
is `outLine []`), or a `waitForAck` call together with its result. -/
inductive ioEvent where
  | outBytes (bs : List Nat)
  | outLine (text : List Nat)
  | ackAwait (ok : Bool)
deriving DecidableEq, Repr

/-- The bytes of the literal "Done" printed after a successful store. -/
def doneText : List Nat := [68, 111, 110, 101]

/-- The bytes of the literal "ready_" echoed after the command read. -/
def readyText : List Nat := [114, 101, 97, 100, 121, 95]

/-- The byte-accumulation loop of `handleUploadRequest` (main.cpp lines
226-244).  `remaining` counts the loop iterations left before
`buffCount < localBuff[1] * FRAME_SIZE + META_SIZE` turns false; `buff` is
the buffer contents so far (its length is `buffCount`, and a list longer
than SERIAL_PACKET records that the C code stored a byte past the end of
`localBuff`).  Each iteration blocks until a byte is available; if
`buffCount <= SERIAL_PACKET` the byte is consumed and appended, otherwise
the function returns with the overflow flag set, leaving the byte pending
(the model re-prepends it). -/
def uploadLoopAux : Nat → List Nat → SerialIn → Option (List Nat × Bool × SerialIn)
  | 0, buff, s => some (buff, false, s)
  | remaining + 1, buff, s =>
    match readBlocking s with
    | none => none
    | some (b, rest) =>
      if buff.length ≤ SERIAL_PACKET then
        uploadLoopAux remaining (buff ++ [b]) rest
      else
        some (buff, true, Option.some b :: rest)

/-- Model of `handleUploadRequest` (main.cpp lines 211-261): read the two
meta bytes, run the accumulation loop, and on completion echo the buffer
and wait for the acknowledgement; 0xFF stores the parsed animation and
prints "Done", anything else calls `resetFunc` (the restart flag of the
result).  On overflow the device prints an empty line and returns with the
store untouched. -/
def handleUploadRequest (garbage : animation) (st : Store) (s : SerialIn) :
    Option (List ioEvent × Store × Bool) :=
  match readBlocking s with
  | none => none
  | some (b0, s1) =>
    match readBlocking s1 with
    | none => none
    | some (b1, s2) =>
      match uploadLoopAux (b1 * FRAME_SIZE) [b0, b1] s2 with
      | none => none
      | some (buff, overflowed, s3) =>
        if overflowed then
          some ([ioEvent.outLine []], st, false)
        else
          let r := waitForAck s3
          if r.1 then
            some ([ioEvent.outBytes buff, ioEvent.ackAwait true, ioEvent.outLine doneText],
                  saveAnimationFromSerial garbage buff st, false)
          else
            some ([ioEvent.outBytes buff, ioEvent.ackAwait false], st, true)

/-! ### Download handling -/

/-- Model of the per-slot body of `handleDownloadRequest` (main.cpp lines
264-314), iterated over the remaining slot indices.  Per slot: read the
stored struct, wait for an ack, send `[i, frameCount]`, wait for an ack,
send the serialised keyframes, wait for an ack; any failed ack calls
`resetFunc` (the Bool of the result). -/
def downloadSlots (st : Store) : List Nat → SerialIn → List ioEvent × Bool × SerialIn
  | [], s => ([], false, s)
  | i :: tl, s =>
    let a := eepromGet (eepromAddr i) st
    let r1 := waitForAck s
    if r1.1 = false then ([ioEvent.ackAwait false], true, r1.2)
    else
      let r2 := waitForAck r1.2
      if r2.1 = false then
        ([ioEvent.ackAwait true, ioEvent.outBytes [i, a.frameCount], ioEvent.ackAwait false],
         true, r2.2)
      else
        let r3 := waitForAck r2.2
        if r3.1 = false then
          ([ioEvent.ackAwait true, ioEvent.outBytes [i, a.frameCount], ioEvent.ackAwait true,
            ioEvent.outBytes (frameBytes a), ioEvent.ackAwait false], true, r3.2)
        else
          let t := downloadSlots st tl r3.2
          (ioEvent.ackAwait true :: ioEvent.outBytes [i, a.frameCount] :: ioEvent.ackAwait true ::
            ioEvent.outBytes (frameBytes a) :: ioEvent.ackAwait true :: t.1, t.2.1, t.2.2)

/-- Model of `handleDownloadRequest`: the per-slot exchange for slots
0..5 (`for (uint8_t i = 0; i < 6; i++)`). -/
def handleDownloadRequest (st : Store) (s : SerialIn) : List ioEvent × Bool × SerialIn :=
  downloadSlots st (List.range 6) s

/-! ### Command dispatch -/

/-- Model of `Serial.readStringUntil('-')`: accumulate bytes until the
delimiter (byte 45, consumed, not returned), a timeout-length silence, or
the end of the stream. -/
def readCode : SerialIn → List Nat × SerialIn
  | [] => ([], [])
  | Option.none :: rest => ([], rest)
  | Option.some b :: rest =>
    if b = 45 then ([], rest)
    else
      let t := readCode rest
      (b :: t.1, t.2)

/-- Model of `handleSerial` (main.cpp lines 317-343): read the command
code, echo `ready_<code>`, and dispatch on the first character: '0'..'5'
(bytes 48..53) enter the upload sub-case, 'd' (byte 100) the download, and
anything else prints an empty line.  `code[0]` of an empty Arduino String
reads as byte 0, falling into the default case. -/
def handleSerial (garbage : animation) (st : Store) (s : SerialIn) :
    Option (List ioEvent × Store × Bool) :=
  let t := readCode s
  let ready := ioEvent.outLine (readyText ++ t.1)
  match t.1.headD 0 with
  | 48 | 49 | 50 | 51 | 52 | 53 =>
    match handleUploadRequest garbage st t.2 with
    | none => none
    | some (tr, st2, rb) => some (ready :: tr, st2, rb)
  | 100 =>
    let d := handleDownloadRequest st t.2
    some (ready :: d.1, st, d.2.1)
  | _ => some ([ready, ioEvent.outLine []], st, false)

/-! ### Mode selector FSM -/

/-- The states of `buttonFSM`'s switch. -/
inductive BtnState where
  | idle
  | triggered
  | release
deriving DecidableEq, Repr

/-- The static locals of `buttonFSM`: current state, which button started
the press, the press timestamp, and the output slot index. -/
structure fsmState where
  currentState : BtnState
  changeUP : Bool
  timer : Nat
  outputMode : Nat
deriving DecidableEq, Repr

/-- Initial values of `buttonFSM`'s statics. -/
def initFSM : fsmState :=
  { currentState := BtnState.idle, changeUP := false, timer := 0, outputMode := 0 }

/-- One call of `buttonFSM` (main.cpp lines 377-438).  `readUp`/`readDn`
are the raw `digitalRead` values of the two buttons (active-low: `false`
means pressed); `now` is `millis()`.  IDLE records a press and its
timestamp; TRIGGERED commits a mode change once more than BTN_TIME has
elapsed, but only if the same button is still pressed, and always advances
to RELEASE; RELEASE waits for both buttons to read high. -/
def buttonFSM (now : Nat) (readUp readDn : Bool) (s : fsmState) : fsmState :=
  match s.currentState with
  | BtnState.idle =>
    if !readUp then
      { s with currentState := BtnState.triggered, changeUP := true, timer := now }
    else if !readDn then
      { s with currentState := BtnState.triggered, changeUP := false, timer := now }
    else s
  | BtnState.triggered =>
    if now - s.timer > BTN_TIME then
      if s.changeUP && !readUp then
        { s with outputMode := (s.outputMode + 1) % SLOT_COUNT,
                 currentState := BtnState.release }
      else if !s.changeUP && !readDn then
        { s with outputMode := if s.outputMode < 1 then SLOT_COUNT - 1 else s.outputMode - 1,
                 currentState := BtnState.release }
      else { s with currentState := BtnState.release }
    else s
  | BtnState.release =>
    if readUp && readDn then { s with currentState := BtnState.idle } else s

/-! ### Runtime loop -/

/-- The global mutable state the runtime loop touches: the static
`lastMode`, the FSM statics, the EEPROM contents, the global `currentAnim`,
the animation last handed to `animator.updateAnimation`, and the brightness
cache. -/
structure deviceState where
  lastMode : Nat
  fsm : fsmState
  store : Store
  currentAnim : animation
  animatorAnim : animation
  LEDscale : Nat
  prevLEDScale : Nat

/-- Device state after `setup()` with store contents `st`: `EEPROM_Load(0)`
into `currentAnim`, which is handed to the animator; statics start at
zero.  (Analog brightness sampling is outside the modelled core and is
zeroed.) -/
def setupState (st : Store) : deviceState :=
  let a := eepromGet (eepromAddr 0) st
  { lastMode := 0, fsm := initFSM, store := st, currentAnim := a, animatorAnim := a,
    LEDscale := 0, prevLEDScale := 0 }

/-- The serial branch of `loop()` (main.cpp lines 483-490), taken when
`Serial.available() > 0`: run `handleSerial`, then `EEPROM_Load(currentMode)`
and hand `currentAnim` to the animator.  `currentMode` is a loop-local
variable freshly initialised to 0 on every tick, and the serial branch
never runs `buttonFSM`, so the reload always reads slot 0 while `lastMode`
keeps its previous value.  A restart inside the exchange re-enters `setup()`
with the (possibly updated) store. -/
def serialTick (garbage : animation) (d : deviceState) (s : SerialIn) :
    Option (deviceState × Bool) :=
  match handleSerial garbage d.store s with
  | none => none
  | some (_, st2, rb) =>
    if rb then some (setupState st2, true)
    else
      let currentMode : Nat := 0
      let a := eepromGet (eepromAddr currentMode) st2
      some ({ d with store := st2, currentAnim := a, animatorAnim := a }, false)

/-- The non-serial branch of `loop()` (main.cpp lines 491-516): sample the
brightness knob (applied only when it moved by more than POT_THRES), step
`buttonFSM`, and reload the animation when the selected mode changed. -/
def normalTick (d : deviceState) (pot : Nat) (readUp readDn : Bool) (now : Nat) : deviceState :=
  let scale := pot / 4
  let d1 :=
    if max scale d.prevLEDScale - min scale d.prevLEDScale > 20 then
      { d with LEDscale := scale, prevLEDScale := scale }
    else { d with LEDscale := scale }
  let fsm2 := buttonFSM now readUp readDn d1.fsm
  let currentMode := fsm2.outputMode
  if currentMode ≠ d1.lastMode then
    let a := eepromGet (eepromAddr currentMode) d1.store
    { d1 with fsm := fsm2, currentAnim := a, animatorAnim := a, lastMode := currentMode }
  else { d1 with fsm := fsm2 }

/-! ### Concrete fixtures shared by witnesses and counterexamples -/

/-- A zeroed animation struct, used as concrete stack garbage. -/
def garbage0 : animation := ⟨0, [], 0⟩

/-- A store whose every slot holds the zeroed struct. -/
def stZero : Store := fun _ => garbage0

/-- A one-keyframe red animation (the spec's upload happy-path example). -/
def animRed : animation := ⟨1, [⟨255, 0, 0, 100⟩], 100⟩

/-- A one-keyframe blue animation, distinct from `animRed`. -/
def animBlue : animation := ⟨1, [⟨0, 0, 255, 200⟩], 200⟩

/-- A store holding `animBlue` in slot 3 (byte address 504) and `animRed`
everywhere else. -/
def stAB : Store := fun addr => if addr = 504 then animBlue else animRed

/-- A store holding `animRed` in every slot. -/
def stRed : Store := fun _ => animRed

/-! ### Upload loop lemmas -/

/-- When the declared length keeps every write inside the loop's guard
(`buffCount <= SERIAL_PACKET`), the accumulation loop consumes exactly the
expected bytes, appends them to the buffer, and reports no overflow. -/
theorem uploadLoopAux_complete (bytes : List Nat) :
    ∀ (buff : List Nat) (rest : SerialIn),
      buff.length + bytes.length ≤ SERIAL_PACKET + 1 →
      uploadLoopAux bytes.length buff (bytes.map Option.some ++ rest)
        = some (buff ++ bytes, false, rest) := by
  induction bytes with
  | nil =>
    intro buff rest _
    simp [uploadLoopAux]
  | cons b bs ih =>
    intro buff rest h
    have hlen : buff.length ≤ SERIAL_PACKET := by
      simp only [List.length_cons] at h
      omega
    simp only [List.map_cons, List.cons_append, List.length_cons]
    rw [uploadLoopAux]
    simp only [readBlocking, if_pos hlen]
    have h2 : (buff ++ [b]).length + bs.length ≤ SERIAL_PACKET + 1 := by
      simp only [List.length_append, List.length_cons] at *
      simp only [List.length_nil]
      omega
    rw [ih (buff ++ [b]) rest h2, List.append_assoc]
    rfl

/-- The happy path of `handleUploadRequest`: for an in-bounds frame count,
the device reads the meta bytes and the payload, echoes the whole buffer,
and on a 0xFF acknowledgement stores the parsed record (at the slot named
in payload byte 0) and prints "Done". -/
theorem handleUpload_success (garbage : animation) (st : Store)
    (b0 b1 : Nat) (payload : List Nat) (rest : SerialIn)
    (hb1 : b1 ≤ 20) (hlen : payload.length = b1 * FRAME_SIZE) :
    handleUploadRequest garbage st
        (([b0, b1] ++ payload).map Option.some ++ Option.some 255 :: rest)
      = some ([ioEvent.outBytes ([b0, b1] ++ payload), ioEvent.ackAwait true,
               ioEvent.outLine doneText],
              eepromPut (eepromAddr b0) (decodeAnim garbage ([b0, b1] ++ payload)) st,
              false) := by
  have hc := uploadLoopAux_complete payload [b0, b1] (Option.some 255 :: rest)
    (by simp only [List.length_cons, List.length_nil, SERIAL_PACKET]
        simp only [FRAME_SIZE] at hlen
        omega)
  rw [hlen] at hc
  simp only [List.map_cons, List.map_append, List.cons_append, List.nil_append] at hc ⊢
  rw [handleUploadRequest]
  simp only [readBlocking]
  rw [hc]
  simp [waitForAck, saveAnimationFromSerial]

/-! ### C3: upload acknowledgement failure -/

/-- C3: if the event after the echo is anything but the byte 0xFF (a wrong
byte, a timeout-length silence, or a dead stream), `handleUploadRequest`
leaves the store exactly as it was — the `EEPROM.put` sits strictly inside
the successful-ack branch — and calls `resetFunc`, modelled by the restart
flag of the result. -/
theorem upload_ack_failure_keeps_store (garbage : animation) (st : Store)
    (b0 b1 : Nat) (payload : List Nat) (rest : SerialIn)
    (hb1 : b1 ≤ 20) (hlen : payload.length = b1 * FRAME_SIZE)
    (hfail : (waitForAck rest).1 = false) :
    handleUploadRequest garbage st (([b0, b1] ++ payload).map Option.some ++ rest)
      = some ([ioEvent.outBytes ([b0, b1] ++ payload), ioEvent.ackAwait false], st, true) := by
  have hc := uploadLoopAux_complete payload [b0, b1] rest
    (by simp only [List.length_cons, List.length_nil, SERIAL_PACKET]
        simp only [FRAME_SIZE] at hlen
        omega)
  rw [hlen] at hc
  simp only [List.map_cons, List.map_append, List.cons_append, List.nil_append] at hc ⊢
  rw [handleUploadRequest]
  simp only [readBlocking]
  rw [hc]
  simp [hfail]

/-- Witness for C3: the spec's upload-failure example — slot 2, one red
keyframe, acknowledgement byte 0x00 — leaves the (all-red) store untouched
and restarts. -/
theorem upload_ack_failure_keeps_store_witness :
    handleUploadRequest garbage0 stRed
        (([2, 1] ++ [255, 0, 0, 0, 0, 0, 100]).map Option.some ++ [Option.some 0])
      = some ([ioEvent.outBytes ([2, 1] ++ [255, 0, 0, 0, 0, 0, 100]),
               ioEvent.ackAwait false], stRed, true) :=
  upload_ack_failure_keeps_store garbage0 stRed 2 1 [255, 0, 0, 0, 0, 0, 100]
    [Option.some 0] (by decide) (by decide) (by decide)

/-! ### C10: frameCount = 0 is accepted and stored -/

/-- C10: an upload whose payload header declares `frameCount = 0` is not
rejected: the loop reads zero keyframe bytes, the device echoes the two
header bytes, and a 0xFF acknowledgement stores a struct with
`frameCount = 0` and with `time` left at whatever the uninitialised stack
local held, at the slot named by payload byte 0 — no 1..20 bound is
enforced anywhere on this path. -/
theorem upload_framecount_zero_stored (garbage : animation) (st : Store)
    (slot : Nat) (rest : SerialIn) :
    handleUploadRequest garbage st
        (Option.some slot :: Option.some 0 :: Option.some 255 :: rest)
      = some ([ioEvent.outBytes [slot, 0], ioEvent.ackAwait true, ioEvent.outLine doneText],
              eepromPut (eepromAddr slot)
                { frameCount := 0, frames := [], time := garbage.time } st,
              false) := rfl

/-! ### C2: declared overflow aborts, but only after one out-of-bounds write -/

/-- C2 evaluation: an upload declaring 21 frames (21 * 7 + 2 = 149 > 142
total bytes).  The guard `buffCount <= SERIAL_PACKET` still admits the
write at `buffCount = 142`, so the accumulation loop stores a byte at
index 142 of the 142-byte `localBuff` (the model's buffer grows to length
SERIAL_PACKET + 1 = 143) before the next iteration takes the overflow
branch; the exchange then replies with an empty line, does not restart,
and leaves the store untouched. -/
theorem upload_overflow_oob_write :
    uploadLoopAux (21 * FRAME_SIZE) [0, 21] (List.replicate 142 (Option.some 9))
        = some (0 :: 21 :: List.replicate 141 9, true, [Option.some 9])
    ∧ (0 :: 21 :: List.replicate 141 9).length = SERIAL_PACKET + 1
    ∧ handleUploadRequest garbage0 stZero
          (Option.some 0 :: Option.some 21 :: List.replicate 142 (Option.some 9))
        = some ([ioEvent.outLine []], stZero, false) :=
  ⟨by decide, by decide, rfl⟩

/-! ### C5: the stored slot comes from the payload, not the command digit -/

/-- C5: for every command digit '0'..'5' (bytes 48..53), `handleSerial`
enters the same upload sub-case, and a successful exchange stores the
decoded record at the slot named in byte 0 of the payload buffer — the
result is identical for every digit except for the echoed
`ready_<code>` line, and the command digit never influences the stored
slot. -/
theorem upload_stores_at_payload_slot (garbage : animation) (st : Store)
    (c b0 b1 : Nat) (payload : List Nat) (rest : SerialIn)
    (hc : 48 ≤ c ∧ c ≤ 53) (hb1 : b1 ≤ 20) (hlen : payload.length = b1 * FRAME_SIZE) :
    handleSerial garbage st
        (Option.some c :: Option.some 45 ::
          (([b0, b1] ++ payload).map Option.some ++ Option.some 255 :: rest))
      = some (ioEvent.outLine (readyText ++ [c]) ::
              [ioEvent.outBytes ([b0, b1] ++ payload), ioEvent.ackAwait true,
               ioEvent.outLine doneText],
              eepromPut (eepromAddr b0) (decodeAnim garbage ([b0, b1] ++ payload)) st,
              false) := by
  have hsucc := handleUpload_success garbage st b0 b1 payload rest hb1 hlen
  simp only [List.map_cons, List.map_append, List.cons_append, List.nil_append] at hsucc
  obtain ⟨h1, h2⟩ := hc
  interval_cases c <;> simp [handleSerial, readCode, hsucc]

/-- Witness for C5: command digit '4' (byte 52) uploading a payload whose
byte 0 names slot 2 stores the red record at slot 2's address. -/
theorem upload_stores_at_payload_slot_witness :
    handleSerial garbage0 stZero
        (Option.some 52 :: Option.some 45 ::
          (([2, 1] ++ [255, 0, 0, 0, 0, 0, 100]).map Option.some ++
            Option.some 255 :: []))
      = some (ioEvent.outLine (readyText ++ [52]) ::
              [ioEvent.outBytes ([2, 1] ++ [255, 0, 0, 0, 0, 0, 100]), ioEvent.ackAwait true,
               ioEvent.outLine doneText],
              eepromPut (eepromAddr 2)
                (decodeAnim garbage0 ([2, 1] ++ [255, 0, 0, 0, 0, 0, 100])) stZero,
              false) :=
  upload_stores_at_payload_slot garbage0 stZero 52 2 1 [255, 0, 0, 0, 0, 0, 100] []
    (by decide) (by decide) (by decide)

/-! ### C1: the post-exchange reload reads slot 0, not the active slot -/

/-- A device state whose Mode Selector FSM most recently selected slot 3
(`lastMode = 3`, FSM output 3), with distinct records in slots 0 and 3. -/
def dState3 : deviceState :=
  { lastMode := 3,
    fsm := { currentState := BtnState.idle, changeUP := false, timer := 0, outputMode := 3 },
    store := stAB, currentAnim := animBlue, animatorAnim := animBlue,
    LEDscale := 0, prevLEDScale := 0 }

/-- C1 evaluation: a tick with pending serial input (here the complete
no-op exchange for the unknown command "x-") runs the exchange to
completion and then executes `EEPROM_Load(currentMode)` — but
`currentMode` is a loop-local freshly initialised to 0, so the animator is
handed slot 0's record (`animRed`) even though the slot most recently
selected by the FSM is 3, whose stored record (`animBlue`) differs;
`lastMode` stays 3, so no later tick restores the active record until a
button commits a new mode. -/
theorem loop_serial_reload_uses_slot_zero :
    ∃ d2 : deviceState,
      serialTick garbage0 dState3 [Option.some 120, Option.some 45] = some (d2, false)
      ∧ d2.animatorAnim = animRed
      ∧ d2.lastMode = 3
      ∧ eepromGet (eepromAddr dState3.lastMode) dState3.store = animBlue
      ∧ animRed ≠ animBlue := by
  refine ⟨{ dState3 with store := stAB, currentAnim := animRed, animatorAnim := animRed },
          rfl, rfl, rfl, rfl, by decide⟩

/-! ### C4: the persisted layout is the raw struct at stride 168 -/

/-- Counterexample to C4 as stated: every storage access in main.cpp
addresses `slot * sizeof(AnimationDriver::animation)`, and the source's
own comment puts that struct at 168 bytes, so slot 1 lives at byte offset
168, not at the claimed `1 * 142`. -/
theorem eeprom_stride_not_wire_size :
    eepromAddr 1 ≠ 1 * 142 ∧ eepromAddr 1 = animationSize ∧ animationSize ≠ 142 := by
  decide

/-- C4 amended: the store keeps each record as the raw in-memory struct in
a fixed-size region of `sizeof(animation)` = 168 bytes at byte offset
`slot * 168`; a write to slot `i` is read back intact from slot `i` and
leaves every other slot's region untouched.  (The 2-header-byte/7-byte-
keyframe big-endian wire encoding of the claim exists only on the serial
link, in `saveAnimationFromSerial`'s input and `handleDownloadRequest`'s
output.) -/
theorem eeprom_slot_regions (i j : Nat) (a : animation) (st : Store) (hne : j ≠ i) :
    eepromAddr i = i * 168
    ∧ eepromGet (eepromAddr i) (eepromPut (eepromAddr i) a st) = a
    ∧ eepromGet (eepromAddr j) (eepromPut (eepromAddr i) a st) = eepromGet (eepromAddr j) st := by
  have hne2 : eepromAddr j ≠ eepromAddr i := by
    simp only [eepromAddr, animationSize]
    omega
  exact ⟨rfl, if_pos rfl, if_neg hne2⟩

/-- Witness for the amended C4: writing the red record at slot 0 reads
back red at slot 0 and leaves slot 1 zeroed. -/
theorem eeprom_slot_regions_witness :
    eepromAddr 0 = 0 * 168
    ∧ eepromGet (eepromAddr 0) (eepromPut (eepromAddr 0) animRed stZero) = animRed
    ∧ eepromGet (eepromAddr 1) (eepromPut (eepromAddr 0) animRed stZero)
        = eepromGet (eepromAddr 1) stZero :=
  eeprom_slot_regions 0 1 animRed stZero (by decide)

/-! ### C8: slot wraparound and range -/

/-- C8: a committed "up" at slot 5 wraps to 0 and a committed "down" at
slot 0 wraps to 5; at every other slot "up" adds one and "down" subtracts
one; and a single `buttonFSM` call never moves the output outside
[0, SLOT_COUNT - 1]. -/
theorem mode_wraparound (s : fsmState) (now : Nat) (readUp readDn : Bool)
    (hst : s.currentState = BtnState.triggered) (ht : now - s.timer > BTN_TIME) :
    ((s.changeUP = true ∧ readUp = false ∧ s.outputMode = 5) →
      (buttonFSM now readUp readDn s).outputMode = 0)
    ∧ ((s.changeUP = false ∧ readDn = false ∧ s.outputMode = 0) →
      (buttonFSM now readUp readDn s).outputMode = 5)
    ∧ ((s.changeUP = true ∧ readUp = false ∧ s.outputMode < 5) →
      (buttonFSM now readUp readDn s).outputMode = s.outputMode + 1)
    ∧ ((s.changeUP = false ∧ readDn = false ∧ 1 ≤ s.outputMode) →
      (buttonFSM now readUp readDn s).outputMode = s.outputMode - 1)
    ∧ (∀ (s2 : fsmState) (n : Nat) (u d : Bool),
        s2.outputMode < SLOT_COUNT → (buttonFSM n u d s2).outputMode < SLOT_COUNT) := by
  refine ⟨?_, ?_, ?_, ?_, ?_⟩
  · rintro ⟨hcu, hru, hm⟩
    simp [buttonFSM, hst, ht, hcu, hru, hm, SLOT_COUNT]
  · rintro ⟨hcu, hrd, hm⟩
    simp [buttonFSM, hst, ht, hcu, hrd, hm, SLOT_COUNT]
  · rintro ⟨hcu, hru, hm⟩
    simp [buttonFSM, hst, ht, hcu, hru, SLOT_COUNT]
    omega
  · rintro ⟨hcu, hrd, hm⟩
    simp [buttonFSM, hst, ht, hcu, hrd, SLOT_COUNT]
    omega
  · intro s2 n u d hm
    rcases s2 with ⟨cs, cu, tm, om⟩
    simp only [SLOT_COUNT] at hm ⊢
    cases cs <;>
        simp [buttonFSM, SLOT_COUNT, apply_ite (fun x : fsmState => x.outputMode)] <;>
      (try split_ifs) <;> omega

/-- Witness for C8: in TRIGGERED at slot 5 with the up button still held
301 ms after the press, the committed change wraps the output to 0. -/
theorem mode_wraparound_witness :
    (buttonFSM 301 false true
      { currentState := BtnState.triggered, changeUP := true, timer := 0,
        outputMode := 5 }).outputMode = 0 :=
  (mode_wraparound
      { currentState := BtnState.triggered, changeUP := true, timer := 0, outputMode := 5 }
      301 false true rfl (by decide)).1 ⟨rfl, rfl, rfl⟩

/-! ### C9: one debounced action per press -/

/-- C9: the per-tick behaviour of a single press.  From IDLE no call
changes the output (a press only records the button and timestamp).  In
TRIGGERED nothing at all changes while the 200 ms window has not elapsed;
at the first call past the window the FSM moves to RELEASE, committing
exactly one slot change if the pressing button is still held and none if
it was released.  In RELEASE the state is frozen until both buttons read
released, and only then does it return to IDLE — so a held button can
never commit a second change.  Finally, the only situation in which any
call changes the output is a TRIGGERED state past its window. -/
theorem debounce_single_action (s : fsmState) (now : Nat) (readUp readDn : Bool) :
    (s.currentState = BtnState.idle →
      (buttonFSM now readUp readDn s).outputMode = s.outputMode)
    ∧ (s.currentState = BtnState.idle → readUp = false →
      buttonFSM now readUp readDn s
        = { s with currentState := BtnState.triggered, changeUP := true, timer := now })
    ∧ (s.currentState = BtnState.triggered → now - s.timer ≤ BTN_TIME →
      buttonFSM now readUp readDn s = s)
    ∧ (s.currentState = BtnState.triggered → now - s.timer > BTN_TIME →
      ((s.changeUP = true ∧ readUp = true) ∨ (s.changeUP = false ∧ readDn = true)) →
      (buttonFSM now readUp readDn s).outputMode = s.outputMode
        ∧ (buttonFSM now readUp readDn s).currentState = BtnState.release)
    ∧ (s.currentState = BtnState.triggered → now - s.timer > BTN_TIME →
      ((s.changeUP = true ∧ readUp = false) ∨ (s.changeUP = false ∧ readDn = false)) →
      (buttonFSM now readUp readDn s).outputMode ≠ s.outputMode
        ∧ (buttonFSM now readUp readDn s).currentState = BtnState.release)
    ∧ (s.currentState = BtnState.release → (readUp = false ∨ readDn = false) →
      buttonFSM now readUp readDn s = s)
    ∧ (s.currentState = BtnState.release → readUp = true → readDn = true →
      buttonFSM now readUp readDn s = { s with currentState := BtnState.idle })
    ∧ ((buttonFSM now readUp readDn s).outputMode ≠ s.outputMode →
      s.currentState = BtnState.triggered ∧ now - s.timer > BTN_TIME) := by
  rcases s with ⟨cs, cu, tm, om⟩
  dsimp only
  refine ⟨?_, ?_, ?_, ?_, ?_, ?_, ?_, ?_⟩
  · intro hcs
    subst hcs
    simp only [buttonFSM]
    split_ifs <;> rfl
  · intro hcs hru
    subst hcs
    simp [buttonFSM, hru]
  · intro hcs hle
    subst hcs
    simp only [buttonFSM]
    rw [if_neg (by omega)]
  · rintro hcs ht (⟨hcu, hru⟩ | ⟨hcu, hrd⟩) <;> subst hcs <;>
      simp_all [buttonFSM]
  · rintro hcs ht (⟨hcu, hru⟩ | ⟨hcu, hrd⟩) <;> subst hcs <;>
      simp_all [buttonFSM, SLOT_COUNT] <;> (try split_ifs) <;> omega
  · rintro hcs (hru | hrd) <;> subst hcs <;> simp_all [buttonFSM]
  · intro hcs hru hrd
    subst hcs
    simp [buttonFSM, hru, hrd]
  · intro hch
    simp only [buttonFSM] at hch
    cases cs
    · exfalso
      revert hch
      split_ifs <;> simp
    · constructor
      · rfl
      · by_contra hle
        rw [if_neg hle] at hch
        exact hch rfl
    · exfalso
      revert hch
      split_ifs <;> simp

/-- Witness for C9: a call 100 ms into a press (window not yet elapsed)
leaves the whole state unchanged. -/
theorem debounce_single_action_witness :
    buttonFSM 100 false true
        { currentState := BtnState.triggered, changeUP := true, timer := 0, outputMode := 2 }
      = { currentState := BtnState.triggered, changeUP := true, timer := 0, outputMode := 2 } :=
  (debounce_single_action
      { currentState := BtnState.triggered, changeUP := true, timer := 0, outputMode := 2 }
      100 false true).2.2.1 rfl (by decide)

/-! ### C7: the download exchange -/

/-- The acknowledgement-gated triple the device emits for one slot of a
download: ack wait, the 2 header bytes `[slot, frameCount]`, ack wait, the
serialised keyframes, and the closing ack wait. -/
def slotTrace (st : Store) (i : Nat) : List ioEvent :=
  let a := eepromGet (eepromAddr i) st
  [ioEvent.ackAwait true, ioEvent.outBytes [i, a.frameCount], ioEvent.ackAwait true,
   ioEvent.outBytes (frameBytes a), ioEvent.ackAwait true]

/-- A successful `waitForAck` call can only have consumed a 0xFF byte. -/
theorem waitForAck_true (s s1 : SerialIn) (h : waitForAck s = (true, s1)) :
    s = Option.some 255 :: s1 := by
  match s with
  | [] => simp [waitForAck] at h
  | Option.none :: rest => simp [waitForAck] at h
  | Option.some b :: rest =>
    simp only [waitForAck, Prod.mk.injEq] at h
    obtain ⟨hb, hr⟩ := h
    have hb2 : b = 255 := by
      by_contra hne
      rw [if_neg hne] at hb
      exact Bool.false_ne_true hb
    rw [hb2, hr]

/-- When the host acknowledges every message, the download emits the full
per-slot triple for each requested slot, consumes exactly three 0xFF
events per slot, and never restarts. -/
theorem downloadSlots_ok (st : Store) (slots : List Nat) :
    ∀ rest : SerialIn,
      downloadSlots st slots (List.replicate (3 * slots.length) (Option.some 255) ++ rest)
        = ((slots.map (slotTrace st)).flatten, false, rest) := by
  induction slots with
  | nil => intro rest; simp [downloadSlots]
  | cons i tl ih =>
    intro rest
    have h3 : 3 * (i :: tl).length = 3 + 3 * tl.length := by
      simp [List.length_cons]
      ring
    rw [h3, List.replicate_add]
    simp only [List.replicate_succ, List.replicate_zero, List.cons_append, List.nil_append]
    rw [downloadSlots]
    simp only [waitForAck, if_pos rfl]
    rw [ih rest]
    simp [slotTrace]

/-- A download that ran to completion without restarting consumed an
unbroken prefix of 0xFF acknowledgement events, three per slot. -/
theorem downloadSlots_no_restart (st : Store) (slots : List Nat) :
    ∀ (s s1 : SerialIn) (tr : List ioEvent),
      downloadSlots st slots s = (tr, false, s1) →
      ∃ r : SerialIn, s = List.replicate (3 * slots.length) (Option.some 255) ++ r := by
  induction slots with
  | nil =>
    intro s s1 tr _
    exact ⟨s, by simp⟩
  | cons i tl ih =>
    intro s s1 tr h
    rw [downloadSlots] at h
    rcases h1 : waitForAck s with ⟨ok1, t1⟩
    rw [h1] at h
    cases ok1 with
    | false => simp at h
    | true =>
      simp only [Bool.true_eq_false, if_neg (by simp : ¬True = False)] at h
      rcases h2 : waitForAck t1 with ⟨ok2, t2⟩
      rw [h2] at h
      cases ok2 with
      | false => simp at h
      | true =>
        rcases h3 : waitForAck t2 with ⟨ok3, t3⟩
        rw [h3] at h
        cases ok3 with
        | false => simp at h
        | true =>
          simp only [if_neg] at h
          rcases h4 : downloadSlots st tl t3 with ⟨tr4, rb4, s4⟩
          rw [h4] at h
          have hrb : rb4 = false := by
            have := congrArg (fun p => p.2.1) h
            simpa using this
          obtain ⟨r, hr⟩ := ih t3 s4 tr4 (by rw [h4, hrb])
          refine ⟨r, ?_⟩
          rw [waitForAck_true s t1 h1, waitForAck_true t1 t2 h2, waitForAck_true t2 t3 h3, hr]
          have h5 : 3 * (i :: tl).length = 3 + 3 * tl.length := by
            simp [List.length_cons]
            ring
          rw [h5, List.replicate_add]
          simp

/-- C7: a `"d-"` download against any store (in particular one holding 6
valid records) emits, for slots 0..5 in ascending order, exactly one
acknowledgement-gated triple each — ack wait, the stored record's header
bytes `[slot, frameCount]`, ack wait, its `frameCount * 7` serialised
keyframe bytes, ack wait — when all 18 acknowledgements arrive; the
payload length is exactly `frameCount * FRAME_SIZE` for every slot; and if
any of the 18 acknowledgement waits fails or times out the device
restarts: a run that did not restart can only have consumed 18 straight
0xFF events. -/
theorem download_exchange (st : Store) (rest : SerialIn) :
    handleDownloadRequest st (List.replicate 18 (Option.some 255) ++ rest)
        = (((List.range 6).map (slotTrace st)).flatten, false, rest)
    ∧ (∀ (s s1 : SerialIn) (tr : List ioEvent),
        handleDownloadRequest st s = (tr, false, s1) →
        ∃ r : SerialIn, s = List.replicate 18 (Option.some 255) ++ r)
    ∧ (∀ i : Nat,
        (frameBytes (eepromGet (eepromAddr i) st)).length
          = (eepromGet (eepromAddr i) st).frameCount * FRAME_SIZE) := by
  refine ⟨?_, ?_, ?_⟩
  · have h := downloadSlots_ok st (List.range 6) rest
    simpa using h
  · intro s s1 tr h
    have h2 := downloadSlots_no_restart st (List.range 6) s s1 tr h
    simpa using h2
  · intro i
    have hlen : ∀ a : animation, (frameBytes a).length = a.frameCount * FRAME_SIZE := by
      intro a
      simp only [frameBytes, List.length_flatten, List.map_map]
      have : (List.range a.frameCount).map
          ((fun l : List Nat => l.length) ∘ fun j => encodeFrame (a.frames.getD j keyframe0))
            = (List.range a.frameCount).map (fun _ => FRAME_SIZE) := by
        refine List.map_congr_left ?_
        intro x _
        rfl
      rw [this, List.map_const', List.sum_replicate, List.length_range, smul_eq_mul,
          Nat.mul_comm]
    exact hlen _

/-- Witness for C7: against the all-red store with exactly the 18
acknowledgement events, the download produces the six red triples, ends
with an empty stream, does not restart, and that non-restarting run indeed
consumed the 18-ack prefix. -/
theorem download_exchange_witness :
    handleDownloadRequest stRed (List.replicate 18 (Option.some 255) ++ [])
        = (((List.range 6).map (slotTrace stRed)).flatten, false, [])
    ∧ ∃ r : SerialIn,
        (List.replicate 18 (Option.some 255) ++ ([] : SerialIn))
          = List.replicate 18 (Option.some 255) ++ r := by
  have h := download_exchange stRed []
  exact ⟨h.1, h.2.1 (List.replicate 18 (Option.some 255) ++ [])
    [] (((List.range 6).map (slotTrace stRed)).flatten) h.1⟩

/-! ### C6: codec round trip -/

/-- A valid `AnimationRecord` in the sense of the data model: between 1
and 20 keyframes, every stored byte in range, every timestamp a 32-bit
value, and the derived total duration equal to the last keyframe's
timestamp. -/
def validAnim (r : animation) : Prop :=
  1 ≤ r.frameCount ∧ r.frameCount ≤ 20 ∧ r.frames.length = r.frameCount
    ∧ (∀ f ∈ r.frames, f.c0 < 256 ∧ f.c1 < 256 ∧ f.c2 < 256 ∧ f.time < 2 ^ 32)
    ∧ r.time = (r.frames.getD (r.frameCount - 1) keyframe0).time

instance (r : animation) : Decidable (validAnim r) := by
  unfold validAnim
  infer_instance

/-- Indexing an append below the left part's length reads the left part. -/
theorem getD_append_lt (l m : List Nat) (n d : Nat) (h : n < l.length) :
    (l ++ m).getD n d = l.getD n d := by
  induction l generalizing n with
  | nil => simp at h
  | cons x xs ih =>
    match n with
    | 0 => rfl
    | n + 1 =>
      simp only [List.cons_append, List.getD_cons_succ]
      exact ih n (by simpa using h)

/-- Indexing an append at the left part's length plus an offset reads the
right part at the offset. -/
theorem getD_append_ge (l m : List Nat) (n d : Nat) :
    (l ++ m).getD (l.length + n) d = m.getD n d := by
  induction l with
  | nil => simp
  | cons x xs ih =>
    simp only [List.cons_append, List.length_cons]
    have h : xs.length + 1 + n = xs.length + n + 1 := by omega
    rw [h, List.getD_cons_succ, ih]

/-- Reading byte `k` of block `i` out of a flattened list of 7-byte
blocks. -/
theorem flatten_blocks_getD (L : List (List Nat)) :
    ∀ (i k d : Nat), (∀ b ∈ L, b.length = 7) → i < L.length → k < 7 →
      L.flatten.getD (i * 7 + k) d = (L.getD i []).getD k d := by
  induction L with
  | nil =>
    intro i k d _ hi _
    simp at hi
  | cons b tl ih =>
    intro i k d hb hi hk
    match i with
    | 0 =>
      simp only [List.flatten_cons, Nat.zero_mul, Nat.zero_add, List.getD_cons_zero]
      exact getD_append_lt b tl.flatten k d (by rw [hb b (by simp)]; exact hk)
    | i + 1 =>
      simp only [List.flatten_cons, List.getD_cons_succ]
      have hlen : b.length = 7 := hb b (by simp)
      have h : (i + 1) * 7 + k = b.length + (i * 7 + k) := by rw [hlen]; ring
      rw [h, getD_append_ge]
      exact ih i k d (fun x hx => hb x (by simp [hx])) (by simpa using hi) hk

/-- Reading every position of a list through `getD` over its index range
reproduces the list. -/
theorem range_map_getD (l : List keyframe) :
    (List.range l.length).map (fun i => l.getD i keyframe0) = l := by
  induction l with
  | nil => rfl
  | cons x xs ih =>
    rw [List.length_cons, List.range_succ_eq_map, List.map_cons, List.map_map]
    show x :: (List.range xs.length).map ((fun i => (x :: xs).getD i keyframe0) ∘ Nat.succ)
        = x :: xs
    rw [show ((fun i => (x :: xs).getD i keyframe0) ∘ Nat.succ)
          = fun i => xs.getD i keyframe0 from funext (fun i => rfl), ih]

/-- Oring a value shifted fully above `n` bits with a value below `2 ^ n`
is addition. -/
theorem lor_hi_lo (n a b : Nat) (hb : b < 2 ^ n) : 2 ^ n * a ||| b = 2 ^ n * a + b :=
  (Nat.mul_add_lt_is_or hb a).symm

/-- Splitting a 32-bit value into four big-endian bytes with shifts and
truncations, then reassembling them with shifts and ors, is the
identity. -/
theorem time_roundtrip (t : Nat) (ht : t < 2 ^ 32) :
    ((t >>> 24) % 256) <<< 24 ||| ((t >>> 16) % 256) <<< 16 ||| ((t >>> 8) % 256) <<< 8
        ||| t % 256
      = t := by
  rw [Nat.shiftLeft_eq, Nat.shiftLeft_eq, Nat.shiftLeft_eq, Nat.shiftRight_eq_div_pow,
      Nat.shiftRight_eq_div_pow, Nat.shiftRight_eq_div_pow]
  rw [Nat.mul_comm (t / 2 ^ 24 % 256) (2 ^ 24), Nat.mul_comm (t / 2 ^ 16 % 256) (2 ^ 16),
      Nat.mul_comm (t / 2 ^ 8 % 256) (2 ^ 8)]
  set a3 := t / 2 ^ 24 % 256 with hA3
  set a2 := t / 2 ^ 16 % 256 with hA2
  set a1 := t / 2 ^ 8 % 256 with hA1
  set a0 := t % 256 with hA0
  have h3 : a3 < 256 := by rw [hA3]; exact Nat.mod_lt _ (by decide)
  have h2 : a2 < 256 := by rw [hA2]; exact Nat.mod_lt _ (by decide)
  have h1 : a1 < 256 := by rw [hA1]; exact Nat.mod_lt _ (by decide)
  have h0 : a0 < 256 := by rw [hA0]; exact Nat.mod_lt _ (by decide)
  rw [lor_hi_lo 24 a3 (2 ^ 16 * a2) (by norm_num; omega)]
  rw [show 2 ^ 24 * a3 + 2 ^ 16 * a2 = 2 ^ 16 * (2 ^ 8 * a3 + a2) by ring]
  rw [lor_hi_lo 16 (2 ^ 8 * a3 + a2) (2 ^ 8 * a1) (by norm_num; omega)]
  rw [show 2 ^ 16 * (2 ^ 8 * a3 + a2) + 2 ^ 8 * a1
        = 2 ^ 8 * (2 ^ 8 * (2 ^ 8 * a3 + a2) + a1) by ring]
  rw [lor_hi_lo 8 (2 ^ 8 * (2 ^ 8 * a3 + a2) + a1) a0 (by norm_num; omega)]
  rw [hA3, hA2, hA1, hA0]
  norm_num
  omega

/-- C6: decoding the byte buffer produced by encoding a valid record — 2
header bytes, then per keyframe 3 color bytes and a big-endian 4-byte
timestamp — yields the record back, including the total duration, which
for a valid record equals the last keyframe's timestamp.  The header's
slot byte is arbitrary: `decodeAnim` reads it only for the store address,
not for the record contents. -/
theorem decode_encode_roundtrip (slot : Nat) (init r : animation) (h : validAnim r) :
    decodeAnim init (slot :: r.frameCount :: frameBytes r) = r := by
  obtain ⟨fc, frames, ttime⟩ := r
  unfold validAnim at h
  obtain ⟨hfc1, hfc20, hlen, hbytes, htime⟩ := h
  dsimp only at hfc1 hfc20 hlen hbytes htime ⊢
  obtain ⟨k, hk⟩ : ∃ k, fc = k + 1 := ⟨fc - 1, by omega⟩
  subst hk
  simp only [Nat.add_sub_cancel] at htime
  set L := (List.range (k + 1)).map (fun i => encodeFrame (frames.getD i keyframe0)) with hL
  have hblock : ∀ b ∈ L, b.length = 7 := by
    intro b hb
    rw [hL] at hb
    obtain ⟨i, _, rfl⟩ := List.mem_map.mp hb
    rfl
  have hLlen : L.length = k + 1 := by rw [hL]; simp
  have hgetblock : ∀ i, i < k + 1 → L.getD i [] = encodeFrame (frames.getD i keyframe0) := by
    intro i hi
    rw [hL, List.getD_eq_getElem?_getD, List.getElem?_map, List.getElem?_range hi]
    rfl
  have hframe : ∀ i, i < k + 1 →
      parseFrame (slot :: (k + 1) :: L.flatten) i = frames.getD i keyframe0 := by
    intro i hi
    have hi2 : i < frames.length := by omega
    have hmem : frames.getD i keyframe0 ∈ frames := by
      rw [List.getD_eq_getElem?_getD, List.getElem?_eq_getElem hi2]
      exact List.getElem_mem hi2
    obtain ⟨hb0, hb1, hb2, hbt⟩ := hbytes _ hmem
    have hacc : ∀ m, m < 7 → (slot :: (k + 1) :: L.flatten).getD (i * 7 + 2 + m) 0
        = (encodeFrame (frames.getD i keyframe0)).getD m 0 := by
      intro m hm
      have e : i * 7 + 2 + m = ([slot, k + 1] : List Nat).length + (i * 7 + m) := by
        simp only [List.length_cons, List.length_nil]
        omega
      rw [show (slot :: (k + 1) :: L.flatten : List Nat) = [slot, k + 1] ++ L.flatten from rfl,
          e, getD_append_ge, flatten_blocks_getD L i m 0 hblock (by omega) hm, hgetblock i hi]
    have e0 := hacc 0 (by decide)
    have e1 := hacc 1 (by decide)
    have e2 := hacc 2 (by decide)
    have e3 := hacc 3 (by decide)
    have e4 := hacc 4 (by decide)
    have e5 := hacc 5 (by decide)
    have e6 := hacc 6 (by decide)
    simp only [encodeFrame, List.getD_cons_zero, List.getD_cons_succ, Nat.add_zero]
      at e0 e1 e2 e3 e4 e5 e6
    simp only [parseFrame, FRAME_SIZE, META_SIZE, List.getD_cons_zero, List.getD_cons_succ]
    rw [e0, e1, e2, e3, e4, e5, e6, time_roundtrip (frames.getD i keyframe0).time hbt]
  show decodeAnim init (slot :: (k + 1) :: L.flatten) = animation.mk (k + 1) frames ttime
  simp only [decodeAnim, List.getD_cons_succ, List.getD_cons_zero, animation.mk.injEq]
  refine ⟨trivial, ?_, ?_⟩
  · rw [List.map_congr_left (fun a ha => hframe a (List.mem_range.mp ha)), ← hlen]
    exact range_map_getD frames
  · rw [hframe k (Nat.lt_succ_self k)]
    exact htime.symm

/-- Witness for C6: the one-keyframe red record round-trips through the
wire encoding with header slot byte 2. -/
theorem decode_encode_roundtrip_witness :
    validAnim animRed
    ∧ decodeAnim garbage0 (2 :: animRed.frameCount :: frameBytes animRed) = animRed :=
  ⟨by decide, decode_encode_roundtrip 2 garbage0 animRed (by decide)⟩

end MoodLamp
